import Mathlib

/-!
Verification of the IPP client library (`ipp.rs`).

The Rust sources under verification are `src/lib.rs` (error type, header
codec, read extensions) and `ipp-proto/src/operation.rs` (operation
builders).  Code of the repository that is only declared there
(`request.rs`, `client.rs`, `attribute.rs`, `value.rs`, the constants
modules) is modelled from the specification; each such definition says so
in its doc comment.

Machine integers are modelled as `Nat` with explicit bounds; byte streams
are `List Nat` of values below 256.
-/

namespace IppRs

/-- `pub const IPP_VERSION: u16 = 0x0101;` from `src/lib.rs`. -/
def IPP_VERSION : Nat := 0x0101

/-! ## Wire primitives: big-endian integer encoding (byteorder crate calls
in `IppHeader::write` / `IppHeader::from_reader`). -/

/-- Big-endian encoding of a 16-bit value, as emitted by
`write_u16::<BigEndian>` for a `u16` (the value is reduced mod 2^16 the
way the Rust type guarantees). -/
def u16be (n : Nat) : List Nat :=
  [n / 256 % 256, n % 256]

/-- Big-endian encoding of a 32-bit value (`write_u32::<BigEndian>`). -/
def u32be (n : Nat) : List Nat :=
  [n / 16777216 % 256, n / 65536 % 256, n / 256 % 256, n % 256]

/-- `read_u16::<BigEndian>`: take two bytes from the stream, fail on EOF. -/
def readU16be : List Nat → Except Unit (Nat × List Nat)
  | b0 :: b1 :: rest => .ok (b0 * 256 + b1, rest)
  | _ => .error ()

/-- `read_u32::<BigEndian>`: take four bytes from the stream, fail on EOF. -/
def readU32be : List Nat → Except Unit (Nat × List Nat)
  | b0 :: b1 :: b2 :: b3 :: rest =>
      .ok (((b0 * 256 + b1) * 256 + b2) * 256 + b3, rest)
  | _ => .error ()

/-! ## IPP header (`struct IppHeader` in `src/lib.rs`). -/

/-- `pub struct IppHeader { version: u16, operation_status: u16, request_id: u32 }`. -/
structure IppHeader where
  version : Nat
  operation_status : Nat
  request_id : Nat
  deriving Repr, DecidableEq

/-- `IppHeader::new(version, status, request_id)`. -/
def IppHeader.new (version status request_id : Nat) : IppHeader :=
  { version := version, operation_status := status, request_id := request_id }

/-- The bytes emitted by `IppHeader::write`: version, operation_status as
2-byte big-endian, request_id as 4-byte big-endian. -/
def IppHeader.writeBytes (h : IppHeader) : List Nat :=
  u16be h.version ++ u16be h.operation_status ++ u32be h.request_id

/-- `IppHeader::write` returns `Ok(8)` after emitting the bytes; writes in
the pure model cannot fail on I/O, so the result is the byte list paired
with the returned count. -/
def IppHeader.write (h : IppHeader) : List Nat × Nat :=
  (h.writeBytes, 8)

/-- `IppHeader::from_reader`: read u16 version, u16 operation/status,
u32 request id, big-endian, propagating read failures (the `?` operator). -/
def IppHeader.from_reader (bs : List Nat) : Except Unit (IppHeader × List Nat) :=
  match readU16be bs with
  | .error e => .error e
  | .ok (v, bs) =>
    match readU16be bs with
    | .error e => .error e
    | .ok (s, bs) =>
      match readU32be bs with
      | .error e => .error e
      | .ok (r, bs) => .ok (IppHeader.new v s r, bs)

/-! ## `ReadIppExt` (`src/lib.rs`): `read_vec` and `read_string`. -/

/-- `read_vec(len)`: `read_exact` into a buffer of `len` bytes; errors
(premature EOF) when the source holds fewer than `len` bytes. -/
def read_vec (len : Nat) (src : List Nat) : Except Unit (List Nat × List Nat) :=
  if len ≤ src.length then .ok (src.take len, src.drop len) else .error ()

/-- Is `b` a UTF-8 continuation byte (`0x80..=0xBF`)? -/
def utf8Cont (b : Nat) : Bool := 128 ≤ b && b ≤ 191

/-- The Unicode replacement character U+FFFD. -/
def replChar : Char := Char.ofNat 0xFFFD

/-- Lossy UTF-8 decoding of a byte list, following
`String::from_utf8_lossy`: each maximal subpart of an ill-formed sequence
is replaced by one U+FFFD; well-formed sequences decode to their scalar
value.  Overlong forms, surrogates and values above U+10FFFF are rejected
at the lead byte exactly as in WHATWG UTF-8 decoding. -/
def utf8Lossy : List Nat → List Char
  | [] => []
  | b :: rest =>
    if b < 128 then
      Char.ofNat b :: utf8Lossy rest
    else if 194 ≤ b && b ≤ 223 then
      match rest with
      | b1 :: rest1 =>
        if utf8Cont b1 then
          Char.ofNat ((b - 192) * 64 + (b1 - 128)) :: utf8Lossy rest1
        else replChar :: utf8Lossy (b1 :: rest1)
      | [] => [replChar]
    else if 224 ≤ b && b ≤ 239 then
      match rest with
      | b1 :: rest1 =>
        if (if b = 224 then 160 ≤ b1 && b1 ≤ 191
            else if b = 237 then 128 ≤ b1 && b1 ≤ 159
            else utf8Cont b1) then
          match rest1 with
          | b2 :: rest2 =>
            if utf8Cont b2 then
              Char.ofNat (((b - 224) * 64 + (b1 - 128)) * 64 + (b2 - 128)) ::
                utf8Lossy rest2
            else replChar :: utf8Lossy (b2 :: rest2)
          | [] => [replChar]
        else replChar :: utf8Lossy (b1 :: rest1)
      | [] => [replChar]
    else if 240 ≤ b && b ≤ 244 then
      match rest with
      | b1 :: rest1 =>
        if (if b = 240 then 144 ≤ b1 && b1 ≤ 191
            else if b = 244 then 128 ≤ b1 && b1 ≤ 143
            else utf8Cont b1) then
          match rest1 with
          | b2 :: rest2 =>
            if utf8Cont b2 then
              match rest2 with
              | b3 :: rest3 =>
                if utf8Cont b3 then
                  Char.ofNat ((((b - 240) * 64 + (b1 - 128)) * 64 + (b2 - 128)) * 64
                      + (b3 - 128)) :: utf8Lossy rest3
                else replChar :: utf8Lossy (b3 :: rest3)
              | [] => [replChar]
            else replChar :: utf8Lossy (b2 :: rest2)
          | [] => [replChar]
        else replChar :: utf8Lossy (b1 :: rest1)
      | [] => [replChar]
    else replChar :: utf8Lossy rest
termination_by bs => bs.length
decreasing_by all_goals simp <;> omega

/-- `String::from_utf8_lossy(..).to_string()` on a byte list. -/
def fromUtf8Lossy (bs : List Nat) : String := String.mk (utf8Lossy bs)

/-- `read_string(len)`: `read_vec(len)` then lossy UTF-8 decoding; the only
failure is the one propagated from `read_vec`. -/
def read_string (len : Nat) (src : List Nat) : Except Unit (String × List Nat) :=
  (read_vec len src).map (fun p => (fromUtf8Lossy p.1, p.2))

/-! ## The error type (`enum IppError` in `src/lib.rs`).  The payloads of
`HttpError`, `IOError` and `ParamError` are external-crate values carrying
no structure the claims need; they are modelled as units. -/

/-- `pub enum IppError` from `src/lib.rs`. -/
inductive IppError where
  | HttpError : IppError
  | IOError : IppError
  | RequestError : String → IppError
  | AttributeError : String → IppError
  | StatusError : Nat → IppError
  | TagError : Nat → IppError
  | ParamError : IppError
  deriving Repr, DecidableEq

/-- `IppError::as_exit_code`, clause for clause. -/
def IppError.as_exit_code : IppError → Int
  | .HttpError => 2
  | .IOError => 3
  | .RequestError _ => 4
  | .AttributeError _ => 5
  | .StatusError _ => 6
  | .TagError _ => 7
  | .ParamError => 1

/-- Constructor index of an `IppError`, used to state that distinct
variants receive distinct exit codes. -/
def IppError.variantIdx : IppError → Nat
  | .HttpError => 0
  | .IOError => 1
  | .RequestError _ => 2
  | .AttributeError _ => 3
  | .StatusError _ => 4
  | .TagError _ => 5
  | .ParamError => 6

/-! ## Value model.  `value.rs` is not among the sources; the variants
below are the ones `operation.rs` constructs (`Integer`, `Boolean`,
`Keyword`, `NameWithoutLanguage`, `ListOf`) plus, modelled from the spec's
value table, the string-shaped variants the request prelude needs
(`Charset`, `NaturalLanguage`, `Uri`). -/

/-- The `IppValue` tagged union, as used by `operation.rs`; string-shaped
variants beyond those are modelled from the spec. -/
inductive IppValue where
  | Integer : Int → IppValue
  | Boolean : Bool → IppValue
  | Keyword : String → IppValue
  | NameWithoutLanguage : String → IppValue
  | Charset : String → IppValue
  | NaturalLanguage : String → IppValue
  | Uri : String → IppValue
  | ListOf : List IppValue → IppValue
  deriving Repr

/-- Does this value carry a list of values (the `ListOf` variant)? -/
def IppValue.isListShaped : IppValue → Bool
  | .ListOf _ => true
  | _ => false

/-- UTF-8 bytes of a string (`str::as_bytes`). -/
def strBytes (s : String) : List Nat := s.toUTF8.toList.map (fun b => b.toNat)

/-- Wire value-tag of a value, from the spec's value-tag table. -/
def IppValue.tag : IppValue → Nat
  | .Integer _ => 0x21
  | .Boolean _ => 0x22
  | .Keyword _ => 0x44
  | .NameWithoutLanguage _ => 0x42
  | .Charset _ => 0x47
  | .NaturalLanguage _ => 0x48
  | .Uri _ => 0x45
  | .ListOf [] => 0x44
  | .ListOf (v :: _) => v.tag

/-- Modelled from the spec: the value bytes emitted after value-tag and
length — 4-byte signed big-endian for integers, one byte for booleans, raw
UTF-8 bytes for the string family.  `ListOf` is encoded at the attribute
layer (one entry per element) and has no value bytes of its own. -/
def IppValue.valueBytes : IppValue → List Nat
  | .Integer i => u32be (i % 4294967296).toNat
  | .Boolean b => [if b then 1 else 0]
  | .Keyword s => strBytes s
  | .NameWithoutLanguage s => strBytes s
  | .Charset s => strBytes s
  | .NaturalLanguage s => strBytes s
  | .Uri s => strBytes s
  | .ListOf _ => []

/-- `IppAttribute`: a name paired with one `IppValue` (which may itself be
a `ListOf`), as constructed by `IppAttribute::new(name, value)` in
`operation.rs`. -/
structure IppAttribute where
  name : String
  value : IppValue
  deriving Repr

/-- `IppAttribute::new`. -/
def IppAttribute.new (name : String) (value : IppValue) : IppAttribute :=
  ⟨name, value⟩

/-! ## Constants (`consts/*.rs` are not among the sources; values are
modelled from the spec's tag table, operation-code table and attribute
names). -/

namespace DelimiterTag
/-- Delimiter tag 0x01. -/
def OperationAttributes : Nat := 0x01
/-- Delimiter tag 0x02. -/
def JobAttributes : Nat := 0x02
/-- Delimiter tag 0x03 (end of attributes). -/
def EndOfAttributes : Nat := 0x03
/-- Delimiter tag 0x04. -/
def PrinterAttributes : Nat := 0x04
end DelimiterTag

namespace Operation
/-- Operation code of Print-Job. -/
def PrintJob : Nat := 0x0002
/-- Operation code of Create-Job. -/
def CreateJob : Nat := 0x0005
/-- Operation code of Send-Document. -/
def SendDocument : Nat := 0x0006
/-- Operation code of Get-Printer-Attributes (the spec's seed test shows
`00 0B`). -/
def GetPrinterAttributes : Nat := 0x000B
end Operation

/-- Attribute-name constant `attributes-charset`. -/
def ATTRIBUTES_CHARSET : String := "attributes-charset"
/-- Attribute-name constant `attributes-natural-language`. -/
def ATTRIBUTES_NATURAL_LANGUAGE : String := "attributes-natural-language"
/-- Attribute-name constant `printer-uri`. -/
def PRINTER_URI : String := "printer-uri"
/-- Attribute-name constant `requesting-user-name`. -/
def REQUESTING_USER_NAME : String := "requesting-user-name"
/-- Attribute-name constant `job-name`. -/
def JOB_NAME : String := "job-name"
/-- Attribute-name constant `job-id`. -/
def JOB_ID : String := "job-id"
/-- Attribute-name constant `last-document`. -/
def LAST_DOCUMENT : String := "last-document"
/-- Attribute-name constant `requested-attributes`. -/
def REQUESTED_ATTRIBUTES : String := "requested-attributes"

/-! ## Request/response container.  `request.rs` is not among the sources;
the container and its operations are modelled from the spec (§3
RequestResponse, §4.5 operation builders, §4.4 serializer). -/

/-- A payload is a byte source; modelled as the byte list it yields. -/
abbrev IppReadStream : Type := List Nat

/-- Modelled from the spec: `RequestResponse` = header + ordered list of
groups (delimiter tag with ordered attributes) + optional payload. -/
structure IppRequestResponse where
  header : IppHeader
  groups : List (Nat × List IppAttribute)
  payload : Option IppReadStream

/-- Modelled from the spec: a fresh request id is drawn per request and is
always nonzero; modelled as a counter-derived value in `[1, 2^32-1]`. -/
def freshRequestId (counter : Nat) : Nat := counter % 4294967295 + 1

/-- The three attributes every request starts its operation-attributes
group with: charset, natural language, target URI, in that order. -/
def requestPrelude (uri : String) : List IppAttribute :=
  [IppAttribute.new ATTRIBUTES_CHARSET (.Charset "utf-8"),
   IppAttribute.new ATTRIBUTES_NATURAL_LANGUAGE (.NaturalLanguage "en"),
   IppAttribute.new PRINTER_URI (.Uri uri)]

/-- Modelled from the spec: `IppRequestResponse::new(operation, uri)`
creates the container with version `IPP_VERSION`, the operation code, a
fresh nonzero request id, and the operation-attributes group prefilled
with `attributes-charset = "utf-8"`, `attributes-natural-language = "en"`
and `printer-uri = uri`, in that order. -/
def IppRequestResponse.new (op : Nat) (uri : String) (counter : Nat) :
    IppRequestResponse :=
  { header := IppHeader.new IPP_VERSION op (freshRequestId counter)
    groups := [(DelimiterTag.OperationAttributes, requestPrelude uri)]
    payload := none }

/-- Set an attribute inside one group's ordered name-to-attribute mapping:
replace in place when the name is present, append otherwise (spec §3:
"ordered mapping from name to Attribute", insertion order preserved). -/
def setInGroup (attrs : List IppAttribute) (a : IppAttribute) :
    List IppAttribute :=
  if attrs.any (fun x => x.name = a.name) then
    attrs.map (fun x => if x.name = a.name then a else x)
  else attrs ++ [a]

/-- Modelled from the spec: `set_attribute(group, attr)` places `attr`
into the group with the given delimiter tag, appending a new group at the
end when none exists yet. -/
def IppRequestResponse.set_attribute (r : IppRequestResponse) (tag : Nat)
    (a : IppAttribute) : IppRequestResponse :=
  if r.groups.any (fun g => g.1 = tag) then
    { r with groups := r.groups.map (fun g =>
        if g.1 = tag then (g.1, setInGroup g.2 a) else g) }
  else
    { r with groups := r.groups ++ [(tag, [a])] }

/-- Modelled from the spec: `set_payload` attaches the payload stream. -/
def IppRequestResponse.set_payload (r : IppRequestResponse)
    (s : IppReadStream) : IppRequestResponse :=
  { r with payload := some s }

/-- The ordered attribute list of the group with delimiter `tag`. -/
def IppRequestResponse.groupOf (r : IppRequestResponse) (tag : Nat) :
    List IppAttribute :=
  ((r.groups.find? (fun g => g.1 = tag)).map (fun g => g.2)).getD []

/-- Lookup of an attribute by group tag and name. -/
def IppRequestResponse.getAttr (r : IppRequestResponse) (tag : Nat)
    (name : String) : Option IppAttribute :=
  (r.groupOf tag).find? (fun a => a.name = name)

/-! ## Operation builders, clause by clause from
`ipp-proto/src/operation.rs`.  The Rust `into_ipp_request(self, uri)`
obtains a fresh request id inside `IppRequestResponse::new`; the model
threads the id counter as an explicit argument. -/

/-- `struct PrintJob` (stream, user_name, job_name, attributes). -/
structure PrintJob where
  stream : IppReadStream
  user_name : Option String
  job_name : Option String
  attributes : List IppAttribute

/-- `PrintJob::into_ipp_request`. -/
def PrintJob.into_ipp_request (self : PrintJob) (uri : String)
    (counter : Nat) : IppRequestResponse :=
  let retval := IppRequestResponse.new Operation.PrintJob uri counter
  let retval :=
    match self.user_name with
    | some user_name =>
        retval.set_attribute DelimiterTag.OperationAttributes
          (IppAttribute.new REQUESTING_USER_NAME (.NameWithoutLanguage user_name))
    | none => retval
  let retval :=
    match self.job_name with
    | some job_name =>
        retval.set_attribute DelimiterTag.OperationAttributes
          (IppAttribute.new JOB_NAME (.NameWithoutLanguage job_name))
    | none => retval
  let retval := self.attributes.foldl
    (fun r attr => r.set_attribute DelimiterTag.JobAttributes attr) retval
  retval.set_payload self.stream

/-- `struct GetPrinterAttributes` (requested attribute names). -/
structure GetPrinterAttributes where
  attributes : List String

/-- `GetPrinterAttributes::into_ipp_request`. -/
def GetPrinterAttributes.into_ipp_request (self : GetPrinterAttributes)
    (uri : String) (counter : Nat) : IppRequestResponse :=
  let retval := IppRequestResponse.new Operation.GetPrinterAttributes uri counter
  if self.attributes.isEmpty then retval
  else
    let vals : List IppValue := self.attributes.map (fun a => .Keyword a)
    retval.set_attribute DelimiterTag.OperationAttributes
      (IppAttribute.new REQUESTED_ATTRIBUTES (.ListOf vals))

/-- `struct CreateJob` (job_name, attributes). -/
structure CreateJob where
  job_name : Option String
  attributes : List IppAttribute

/-- `CreateJob::into_ipp_request`. -/
def CreateJob.into_ipp_request (self : CreateJob) (uri : String)
    (counter : Nat) : IppRequestResponse :=
  let retval := IppRequestResponse.new Operation.CreateJob uri counter
  let retval :=
    match self.job_name with
    | some job_name =>
        retval.set_attribute DelimiterTag.OperationAttributes
          (IppAttribute.new JOB_NAME (.NameWithoutLanguage job_name))
    | none => retval
  self.attributes.foldl
    (fun r attr => r.set_attribute DelimiterTag.JobAttributes attr) retval

/-- `struct SendDocument` (job_id, stream, user_name, last). -/
structure SendDocument where
  job_id : Int
  stream : IppReadStream
  user_name : Option String
  last : Bool

/-- `SendDocument::into_ipp_request`. -/
def SendDocument.into_ipp_request (self : SendDocument) (uri : String)
    (counter : Nat) : IppRequestResponse :=
  let retval := IppRequestResponse.new Operation.SendDocument uri counter
  let retval := retval.set_attribute DelimiterTag.OperationAttributes
    (IppAttribute.new JOB_ID (.Integer self.job_id))
  let retval :=
    match self.user_name with
    | some user_name =>
        retval.set_attribute DelimiterTag.OperationAttributes
          (IppAttribute.new REQUESTING_USER_NAME (.NameWithoutLanguage user_name))
    | none => retval
  let retval := retval.set_attribute DelimiterTag.OperationAttributes
    (IppAttribute.new LAST_DOCUMENT (.Boolean self.last))
  retval.set_payload self.stream

/-! ## Serializer, modelled from the spec (§4.4, §6): header, then for
each group its delimiter tag and attributes (first value with the full
name, continuation values with zero-length name), then the
end-of-attributes byte 0x03, then the payload. -/

/-- One wire entry: value-tag, 2-byte name length, name bytes, 2-byte
value length, value bytes. -/
def serializeEntry (name : String) (v : IppValue) : List Nat :=
  v.tag :: (u16be (strBytes name).length ++ strBytes name
    ++ u16be v.valueBytes.length ++ v.valueBytes)

/-- Modelled from the spec: attribute encoding; a `ListOf` becomes one
leading entry with the full name and continuation entries with empty
name. -/
def serializeAttribute (a : IppAttribute) : List Nat :=
  match a.value with
  | .ListOf [] => []
  | .ListOf (v :: vs) =>
      serializeEntry a.name v ++ vs.flatMap (fun w => serializeEntry "" w)
  | v => serializeEntry a.name v

/-- Modelled from the spec: a group is its delimiter tag followed by its
attributes in order. -/
def serializeGroup (g : Nat × List IppAttribute) : List Nat :=
  g.1 :: g.2.flatMap serializeAttribute

/-- Modelled from the spec: the attribute section of a serialized message
— header bytes, group bytes, and the end-of-attributes byte 0x03. -/
def IppRequestResponse.attrSectionBytes (r : IppRequestResponse) : List Nat :=
  r.header.writeBytes ++ r.groups.flatMap serializeGroup
    ++ [DelimiterTag.EndOfAttributes]

/-- Modelled from the spec: the full serialized message is the attribute
section followed by the payload bytes, if any. -/
def IppRequestResponse.serialize (r : IppRequestResponse) : List Nat :=
  r.attrSectionBytes ++ (r.payload.getD [])

/-! ## Client façade.  `client.rs` is not among the sources. -/

/-- Modelled from the spec (§4.6): after the response is fully parsed the
client inspects `header.operation_status` and returns the response when it
lies in the successful range `0x0000..=0x00FF`, otherwise fails with
`StatusError` carrying the code. -/
def clientValidateResponse (resp : IppRequestResponse) :
    Except IppError IppRequestResponse :=
  if resp.header.operation_status ≤ 0xFF then .ok resp
  else .error (.StatusError resp.header.operation_status)

/-! ## Helper lemmas about the request container -/

theorem set_attribute_header (r : IppRequestResponse) (t : Nat)
    (a : IppAttribute) : (r.set_attribute t a).header = r.header := by
  unfold IppRequestResponse.set_attribute
  split <;> rfl

theorem set_attribute_payload (r : IppRequestResponse) (t : Nat)
    (a : IppAttribute) : (r.set_attribute t a).payload = r.payload := by
  unfold IppRequestResponse.set_attribute
  split <;> rfl

@[simp] theorem set_payload_header (r : IppRequestResponse) (s : IppReadStream) :
    (r.set_payload s).header = r.header := rfl

@[simp] theorem set_payload_groupOf (r : IppRequestResponse) (s : IppReadStream)
    (t : Nat) : (r.set_payload s).groupOf t = r.groupOf t := rfl

theorem foldl_set_header (l : List IppAttribute) (t : Nat)
    (r : IppRequestResponse) :
    (l.foldl (fun r a => r.set_attribute t a) r).header = r.header := by
  induction l generalizing r with
  | nil => rfl
  | cons a l ih => rw [List.foldl_cons, ih, set_attribute_header]

theorem setInGroup_of_not_mem (attrs : List IppAttribute) (a : IppAttribute)
    (h : ∀ x ∈ attrs, x.name ≠ a.name) : setInGroup attrs a = attrs ++ [a] := by
  have hc : attrs.any (fun x => x.name = a.name) = false := by
    rw [List.any_eq_false]
    intro x hx
    simp only [decide_eq_true_eq]
    exact h x hx
  simp [setInGroup, hc]

theorem find_map_setGroup (gs : List (Nat × List IppAttribute)) (t tx : Nat)
    (a : IppAttribute) (h : tx ≠ t) :
    ((gs.map (fun g => if g.1 = t then (g.1, setInGroup g.2 a) else g)).find?
        (fun g => g.1 = tx))
      = gs.find? (fun g => g.1 = tx) := by
  induction gs with
  | nil => rfl
  | cons g gs ih =>
    simp only [List.map_cons]
    by_cases hg : g.1 = t
    · have hx : ¬ g.1 = tx := by omega
      rw [if_pos hg, List.find?_cons_of_neg _ (by simp [hx]),
        List.find?_cons_of_neg _ (by simp [hx]), ih]
    · rw [if_neg hg]
      by_cases hx : g.1 = tx
      · rw [List.find?_cons_of_pos _ (by simp [hx]),
          List.find?_cons_of_pos _ (by simp [hx])]
      · rw [List.find?_cons_of_neg _ (by simp [hx]),
          List.find?_cons_of_neg _ (by simp [hx]), ih]

theorem groupOf_set_attribute_ne (r : IppRequestResponse) (t tx : Nat)
    (a : IppAttribute) (h : tx ≠ t) :
    (r.set_attribute t a).groupOf tx = r.groupOf tx := by
  unfold IppRequestResponse.set_attribute IppRequestResponse.groupOf
  split
  · simp only [find_map_setGroup r.groups t tx a h]
  · simp only [List.find?_append]
    have hnone : List.find? (fun g => decide (g.1 = tx)) [(t, [a])] = none := by
      simp
      omega
    rw [hnone, Option.or_none]

theorem groupOf_foldl_set_ne (l : List IppAttribute) (t tx : Nat)
    (h : tx ≠ t) (r : IppRequestResponse) :
    (l.foldl (fun r a => r.set_attribute t a) r).groupOf tx = r.groupOf tx := by
  induction l generalizing r with
  | nil => rfl
  | cons a l ih => rw [List.foldl_cons, ih, groupOf_set_attribute_ne r t tx a h]

theorem foldl_jobattrs_build (extras acc ops : List IppAttribute)
    (hd : IppHeader) (pl : Option IppReadStream)
    (hnd : (extras.map IppAttribute.name).Nodup)
    (hdisj : ∀ x ∈ acc, ∀ y ∈ extras, x.name ≠ y.name) :
    extras.foldl
        (fun (r : IppRequestResponse) (a : IppAttribute) =>
          r.set_attribute DelimiterTag.JobAttributes a)
        ⟨hd, [(DelimiterTag.OperationAttributes, ops),
              (DelimiterTag.JobAttributes, acc)], pl⟩
      = ⟨hd, [(DelimiterTag.OperationAttributes, ops),
              (DelimiterTag.JobAttributes, acc ++ extras)], pl⟩ := by
  induction extras generalizing acc with
  | nil => simp
  | cons e es ih =>
    rw [List.foldl_cons]
    have hstep : (⟨hd, [(DelimiterTag.OperationAttributes, ops),
          (DelimiterTag.JobAttributes, acc)], pl⟩ :
          IppRequestResponse).set_attribute DelimiterTag.JobAttributes e
        = ⟨hd, [(DelimiterTag.OperationAttributes, ops),
                (DelimiterTag.JobAttributes, setInGroup acc e)], pl⟩ := rfl
    rw [hstep, setInGroup_of_not_mem acc e
      (fun x hx => hdisj x hx e (by simp))]
    rw [ih (acc ++ [e])]
    · simp
    · exact (List.nodup_cons.mp (by simpa using hnd)).2
    · intro x hx y hy
      rcases List.mem_append.mp hx with hx' | hx'
      · exact hdisj x hx' y (List.mem_cons_of_mem e hy)
      · have hxe : x = e := by simpa using hx'
        have hnotin : e.name ∉ es.map IppAttribute.name :=
          (List.nodup_cons.mp (by simpa using hnd)).1
        rw [hxe]
        intro hcontra
        exact hnotin
          (by rw [hcontra]; exact List.mem_map_of_mem IppAttribute.name hy)

theorem groupOf_foldl_jobattrs (extras ops : List IppAttribute)
    (r : IppRequestResponse)
    (hg : r.groups = [(DelimiterTag.OperationAttributes, ops)])
    (hnd : (extras.map IppAttribute.name).Nodup) :
    (extras.foldl (fun r a => r.set_attribute DelimiterTag.JobAttributes a)
        r).groupOf DelimiterTag.JobAttributes = extras := by
  obtain ⟨hd, gs, pl⟩ := r
  simp only at hg
  subst hg
  cases extras with
  | nil => rfl
  | cons e es =>
    rw [List.foldl_cons]
    have hstep : (⟨hd, [(DelimiterTag.OperationAttributes, ops)], pl⟩ :
          IppRequestResponse).set_attribute DelimiterTag.JobAttributes e
        = ⟨hd, [(DelimiterTag.OperationAttributes, ops),
                (DelimiterTag.JobAttributes, [e])], pl⟩ := rfl
    rw [hstep, foldl_jobattrs_build es [e] ops hd pl
      (List.nodup_cons.mp (by simpa using hnd)).2]
    · rfl
    · intro x hx y hy
      have hxe : x = e := by simpa using hx
      have hnotin : e.name ∉ es.map IppAttribute.name :=
        (List.nodup_cons.mp (by simpa using hnd)).1
      rw [hxe]
      intro hcontra
      exact hnotin
        (by rw [hcontra]; exact List.mem_map_of_mem IppAttribute.name hy)

theorem from_reader_writeBytes (h : IppHeader) (rest : List Nat)
    (hv : h.version < 65536) (hs : h.operation_status < 65536)
    (hr : h.request_id < 4294967296) :
    IppHeader.from_reader (h.writeBytes ++ rest) = .ok (h, rest) := by
  simp only [IppHeader.writeBytes, u16be, u32be, List.cons_append,
    List.nil_append, IppHeader.from_reader, readU16be, readU32be,
    IppHeader.new]
  cases h with
  | mk v s r =>
    simp only [Except.ok.injEq, Prod.mk.injEq, IppHeader.mk.injEq]
    refine ⟨⟨?_, ?_, ?_⟩, trivial⟩ <;> simp only [] at hv hs hr <;> omega

/-! ## Theorems -/

/-- C2: `IppHeader::write` emits exactly 8 bytes — version and
operation_status as 2-byte big-endian, request_id as 4-byte big-endian —
returning `Ok(8)`, and `IppHeader::from_reader` applied to those bytes
(followed by anything) recovers the header exactly. -/
theorem header_write_eight_bytes_roundtrip (h : IppHeader) (rest : List Nat)
    (hv : h.version < 65536) (hs : h.operation_status < 65536)
    (hr : h.request_id < 4294967296) :
    h.write.1.length = 8 ∧ h.write.2 = 8 ∧
    h.write.1 = u16be h.version ++ u16be h.operation_status
      ++ u32be h.request_id ∧
    IppHeader.from_reader (h.write.1 ++ rest) = .ok (h, rest) :=
  ⟨rfl, rfl, rfl, from_reader_writeBytes h rest hv hs hr⟩

/-- Witness for C2 at the header (0x0101, 0x000B, 0x12345678): the write
emits 8 bytes and the round trip recovers the header. -/
theorem header_write_eight_bytes_roundtrip_witness :
    (IppHeader.new 257 11 305419896).write.1.length = 8 ∧
    (IppHeader.new 257 11 305419896).write.2 = 8 ∧
    (IppHeader.new 257 11 305419896).write.1 =
      u16be 257 ++ u16be 11 ++ u32be 305419896 ∧
    IppHeader.from_reader ((IppHeader.new 257 11 305419896).write.1 ++ [9])
      = .ok (IppHeader.new 257 11 305419896, [9]) :=
  header_write_eight_bytes_roundtrip (IppHeader.new 257 11 305419896) [9]
    (by decide) (by decide) (by decide)

/-- C10: `IppError::as_exit_code` always lies in `[1, 7]`, is never 0, and
distinct variants receive distinct exit codes (equal codes force equal
constructors). -/
theorem as_exit_code_range_and_injective (e e' : IppError) :
    1 ≤ e.as_exit_code ∧ e.as_exit_code ≤ 7 ∧ e.as_exit_code ≠ 0 ∧
    (e.as_exit_code = e'.as_exit_code → e.variantIdx = e'.variantIdx) := by
  cases e <;> cases e' <;>
    simp [IppError.as_exit_code, IppError.variantIdx]

/-- Witness for C10: `StatusError` maps to exit code 6 ∈ [1,7], and two
errors with the same code share a constructor. -/
theorem as_exit_code_range_and_injective_witness :
    1 ≤ (IppError.StatusError 1024).as_exit_code ∧
    (IppError.StatusError 1024).as_exit_code ≤ 7 ∧
    (IppError.StatusError 1024).variantIdx = (IppError.StatusError 7).variantIdx :=
  ⟨(as_exit_code_range_and_injective (.StatusError 1024) (.StatusError 7)).1,
   (as_exit_code_range_and_injective (.StatusError 1024) (.StatusError 7)).2.1,
   (as_exit_code_range_and_injective (.StatusError 1024) (.StatusError 7)).2.2.2 rfl⟩

/-- C8: `read_string(len)` consumes exactly `len` bytes and returns their
lossy UTF-8 decoding whenever the source holds at least `len` bytes — the
byte contents can never cause a failure — and errors exactly when the
source holds fewer than `len` bytes. -/
theorem read_string_exact_lossy (len : Nat) (src : List Nat) :
    (len ≤ src.length →
      read_string len src = .ok (fromUtf8Lossy (src.take len), src.drop len)) ∧
    (src.length < len → read_string len src = .error ()) := by
  constructor
  · intro h
    simp [read_string, read_vec, h, Except.map]
  · intro h
    have h' : ¬ len ≤ src.length := by omega
    simp [read_string, read_vec, h', Except.map]

/-- Witness for C8 on the source `[0xFF, 0x61, 0x7A]` with `len = 2`: the
invalid byte 0xFF becomes U+FFFD, `a` decodes as itself, one byte is left
unread; with `len = 4` the same source yields a premature-EOF error. -/
theorem read_string_exact_lossy_witness :
    read_string 2 [255, 97, 122]
      = .ok (String.mk [replChar, Char.ofNat 97], [122]) ∧
    read_string 4 [255, 97, 122] = .error () := by
  constructor
  · have := (read_string_exact_lossy 2 [255, 97, 122]).1 (by decide)
    rw [this]
    simp [fromUtf8Lossy, utf8Lossy, utf8Cont]
  · exact (read_string_exact_lossy 4 [255, 97, 122]).2 (by decide)

/-- C1: the client façade returns the parsed response exactly when the
operation status lies in the successful range `0x0000..=0x00FF`; any other
status yields `StatusError` carrying that code, never success. -/
theorem client_status_gating (resp : IppRequestResponse)
    (r : IppRequestResponse) :
    (clientValidateResponse resp = .ok r ↔
      (resp.header.operation_status ≤ 255 ∧ r = resp)) ∧
    (255 < resp.header.operation_status →
      clientValidateResponse resp
        = .error (.StatusError resp.header.operation_status)) := by
  unfold clientValidateResponse
  by_cases hst : resp.header.operation_status ≤ 255
  · simp [hst, eq_comm]
  · simp [hst]

/-- C3: every operation builder's request starts its operation-attributes
group with `attributes-charset = "utf-8"`, `attributes-natural-language =
"en"`, and the target-URI attribute, in exactly that order, before any
attribute the builder adds. -/
theorem builders_emit_prelude_first (stream : IppReadStream)
    (u j : Option String) (extras : List IppAttribute) (names : List String)
    (jid : Int) (l : Bool) (uri : String) (c : Nat) :
    (((PrintJob.mk stream u j extras).into_ipp_request uri c).groupOf
        DelimiterTag.OperationAttributes).take 3 = requestPrelude uri ∧
    (((GetPrinterAttributes.mk names).into_ipp_request uri c).groupOf
        DelimiterTag.OperationAttributes).take 3 = requestPrelude uri ∧
    (((CreateJob.mk j extras).into_ipp_request uri c).groupOf
        DelimiterTag.OperationAttributes).take 3 = requestPrelude uri ∧
    (((SendDocument.mk jid stream u l).into_ipp_request uri c).groupOf
        DelimiterTag.OperationAttributes).take 3 = requestPrelude uri := by
  refine ⟨?_, ?_, ?_, ?_⟩
  · cases u <;> cases j <;>
      · simp only [PrintJob.into_ipp_request]
        rw [set_payload_groupOf, groupOf_foldl_set_ne _ _ _ (by decide)]
        rfl
  · cases names <;> rfl
  · cases j <;>
      · simp only [CreateJob.into_ipp_request]
        rw [groupOf_foldl_set_ne _ _ _ (by decide)]
        rfl
  · cases u <;> rfl

/-- C5: `SendDocument::into_ipp_request` puts `job-id` (integer),
`requesting-user-name` (exactly when a user name was given) and
`last-document` (boolean) into operation-attributes and attaches the
payload stream. -/
theorem send_document_request (jid : Int) (stream : IppReadStream)
    (u : Option String) (l : Bool) (uri : String) (c : Nat) :
    ((SendDocument.mk jid stream u l).into_ipp_request uri c).getAttr
        DelimiterTag.OperationAttributes JOB_ID
      = some (IppAttribute.new JOB_ID (.Integer jid)) ∧
    ((SendDocument.mk jid stream u l).into_ipp_request uri c).getAttr
        DelimiterTag.OperationAttributes REQUESTING_USER_NAME
      = u.map (fun n =>
          IppAttribute.new REQUESTING_USER_NAME (.NameWithoutLanguage n)) ∧
    ((SendDocument.mk jid stream u l).into_ipp_request uri c).getAttr
        DelimiterTag.OperationAttributes LAST_DOCUMENT
      = some (IppAttribute.new LAST_DOCUMENT (.Boolean l)) ∧
    ((SendDocument.mk jid stream u l).into_ipp_request uri c).payload
      = some stream := by
  cases u <;> exact ⟨rfl, rfl, rfl, rfl⟩

/-- C6: `GetPrinterAttributes::into_ipp_request` with a non-empty name
list emits exactly one `requested-attributes` attribute in
operation-attributes holding the names as keywords in order inside one
`ListOf` (the model's 1setOf), and the request has no payload. -/
theorem get_printer_attributes_request (names : List String) (uri : String)
    (c : Nat) (hne : names ≠ []) :
    ((GetPrinterAttributes.mk names).into_ipp_request uri c).getAttr
        DelimiterTag.OperationAttributes REQUESTED_ATTRIBUTES
      = some (IppAttribute.new REQUESTED_ATTRIBUTES
          (.ListOf (names.map IppValue.Keyword))) ∧
    (((GetPrinterAttributes.mk names).into_ipp_request uri c).groupOf
        DelimiterTag.OperationAttributes).countP
        (fun a => a.name = REQUESTED_ATTRIBUTES) = 1 ∧
    ((GetPrinterAttributes.mk names).into_ipp_request uri c).payload
      = none := by
  cases names with
  | nil => exact absurd rfl hne
  | cons n ns => exact ⟨rfl, rfl, rfl⟩

/-- Witness for C6 at the spec's seed test: requested attributes
`printer-name`, `printer-state`. -/
theorem get_printer_attributes_request_witness :
    ((GetPrinterAttributes.mk ["printer-name", "printer-state"]).into_ipp_request
        "ipp://host/printers/p" 0).getAttr
        DelimiterTag.OperationAttributes REQUESTED_ATTRIBUTES
      = some (IppAttribute.new REQUESTED_ATTRIBUTES
          (.ListOf [.Keyword "printer-name", .Keyword "printer-state"])) ∧
    (((GetPrinterAttributes.mk ["printer-name", "printer-state"]).into_ipp_request
        "ipp://host/printers/p" 0).groupOf
        DelimiterTag.OperationAttributes).countP
        (fun a => a.name = REQUESTED_ATTRIBUTES) = 1 ∧
    ((GetPrinterAttributes.mk ["printer-name", "printer-state"]).into_ipp_request
        "ipp://host/printers/p" 0).payload = none :=
  get_printer_attributes_request ["printer-name", "printer-state"]
    "ipp://host/printers/p" 0 (by decide)

/-- C4 counterexample: the value model does contain a distinct list-shaped
variant — building Get-Printer-Attributes with two requested names yields
a single attribute whose one value is `IppValue.ListOf` of both keywords,
so the repetition lives in a list-shaped value variant, not in a
per-attribute value list. -/
theorem value_model_listof_counterexample :
    ((GetPrinterAttributes.mk ["printer-name", "printer-state"]).into_ipp_request
        "ipp://host/printers/p" 0).getAttr
        DelimiterTag.OperationAttributes REQUESTED_ATTRIBUTES
      = some (IppAttribute.new REQUESTED_ATTRIBUTES
          (.ListOf [.Keyword "printer-name", .Keyword "printer-state"])) ∧
    (IppValue.ListOf
        [.Keyword "printer-name", .Keyword "printer-state"]).isListShaped
      = true :=
  ⟨rfl, rfl⟩

/-- C4 amended: the value model contains the distinct `ListOf` variant
holding an ordered list of values, and a multi-valued attribute stores its
repetition as that single list-shaped value under the attribute. -/
theorem value_model_listof_amended (names : List String) (uri : String)
    (c : Nat) (hne : names ≠ []) :
    (((GetPrinterAttributes.mk names).into_ipp_request uri c).getAttr
        DelimiterTag.OperationAttributes REQUESTED_ATTRIBUTES).map
        IppAttribute.value
      = some (IppValue.ListOf (names.map IppValue.Keyword)) ∧
    (IppValue.ListOf (names.map IppValue.Keyword)).isListShaped = true := by
  cases names with
  | nil => exact absurd rfl hne
  | cons n ns => exact ⟨rfl, rfl⟩

/-- Witness for C4's amended claim with one requested name. -/
theorem value_model_listof_amended_witness :
    (((GetPrinterAttributes.mk ["printer-name"]).into_ipp_request "u" 0).getAttr
        DelimiterTag.OperationAttributes REQUESTED_ATTRIBUTES).map
        IppAttribute.value
      = some (IppValue.ListOf [.Keyword "printer-name"]) ∧
    (IppValue.ListOf [IppValue.Keyword "printer-name"]).isListShaped = true :=
  value_model_listof_amended ["printer-name"] "u" 0 (by decide)

/-- C7 counterexample: `PrintJob::add_attribute` pushes into a plain list,
so two extras sharing the name `x` are constructible; the built request's
job-attributes group then holds only the later one (the name-keyed group
replaces in place), so "places every extra attribute into the
job-attributes group in insertion order" fails for duplicate-named
extras. -/
theorem print_job_duplicate_name_counterexample :
    ((PrintJob.mk [7] none none
        [IppAttribute.new "x" (.Integer 1),
         IppAttribute.new "x" (.Integer 2)]).into_ipp_request "u" 0).groupOf
        DelimiterTag.JobAttributes
      ≠ [IppAttribute.new "x" (.Integer 1), IppAttribute.new "x" (.Integer 2)] ∧
    ((PrintJob.mk [7] none none
        [IppAttribute.new "x" (.Integer 1),
         IppAttribute.new "x" (.Integer 2)]).into_ipp_request "u" 0).groupOf
        DelimiterTag.JobAttributes
      = [IppAttribute.new "x" (.Integer 2)] := by
  have h2 : ((PrintJob.mk [7] none none
      [IppAttribute.new "x" (.Integer 1),
       IppAttribute.new "x" (.Integer 2)]).into_ipp_request "u" 0).groupOf
      DelimiterTag.JobAttributes = [IppAttribute.new "x" (.Integer 2)] := rfl
  refine ⟨?_, h2⟩
  rw [h2]
  intro h
  have hlen := congrArg List.length h
  simp at hlen

/-- C7 as amended: `PrintJob::into_ipp_request` emits
`requesting-user-name` and `job-name` in operation-attributes exactly when
present and attaches the payload; the extra job attributes land in
job-attributes in insertion order when their names are pairwise distinct
(a later duplicate-named extra replaces the earlier one instead of
repeating). -/
theorem print_job_request (stream : IppReadStream) (u j : Option String)
    (extras : List IppAttribute) (uri : String) (c : Nat)
    (hnd : (extras.map IppAttribute.name).Nodup) :
    ((PrintJob.mk stream u j extras).into_ipp_request uri c).getAttr
        DelimiterTag.OperationAttributes REQUESTING_USER_NAME
      = u.map (fun n =>
          IppAttribute.new REQUESTING_USER_NAME (.NameWithoutLanguage n)) ∧
    ((PrintJob.mk stream u j extras).into_ipp_request uri c).getAttr
        DelimiterTag.OperationAttributes JOB_NAME
      = j.map (fun n => IppAttribute.new JOB_NAME (.NameWithoutLanguage n)) ∧
    ((PrintJob.mk stream u j extras).into_ipp_request uri c).groupOf
        DelimiterTag.JobAttributes = extras ∧
    ((PrintJob.mk stream u j extras).into_ipp_request uri c).payload
      = some stream := by
  refine ⟨?_, ?_, ?_, ?_⟩
  · cases u <;> cases j <;>
      · simp only [PrintJob.into_ipp_request]
        unfold IppRequestResponse.getAttr
        rw [set_payload_groupOf, groupOf_foldl_set_ne _ _ _ (by decide)]
        rfl
  · cases u <;> cases j <;>
      · simp only [PrintJob.into_ipp_request]
        unfold IppRequestResponse.getAttr
        rw [set_payload_groupOf, groupOf_foldl_set_ne _ _ _ (by decide)]
        rfl
  · cases u <;> cases j <;>
      · simp only [PrintJob.into_ipp_request]
        rw [set_payload_groupOf, groupOf_foldl_jobattrs extras _ _ rfl hnd]
  · cases u <;> cases j <;> rfl

/-- Witness for C7: a print job with user name, no job name, and two
distinct extra attributes. -/
theorem print_job_request_witness :
    ((PrintJob.mk [7] (some "alice") none
        [IppAttribute.new "colormodel" (.Keyword "grayscale"),
         IppAttribute.new "copies" (.Integer 2)]).into_ipp_request "u" 3).getAttr
        DelimiterTag.OperationAttributes REQUESTING_USER_NAME
      = some (IppAttribute.new REQUESTING_USER_NAME
          (.NameWithoutLanguage "alice")) ∧
    ((PrintJob.mk [7] (some "alice") none
        [IppAttribute.new "colormodel" (.Keyword "grayscale"),
         IppAttribute.new "copies" (.Integer 2)]).into_ipp_request "u" 3).getAttr
        DelimiterTag.OperationAttributes JOB_NAME = none ∧
    ((PrintJob.mk [7] (some "alice") none
        [IppAttribute.new "colormodel" (.Keyword "grayscale"),
         IppAttribute.new "copies" (.Integer 2)]).into_ipp_request "u" 3).groupOf
        DelimiterTag.JobAttributes
      = [IppAttribute.new "colormodel" (.Keyword "grayscale"),
         IppAttribute.new "copies" (.Integer 2)] ∧
    ((PrintJob.mk [7] (some "alice") none
        [IppAttribute.new "colormodel" (.Keyword "grayscale"),
         IppAttribute.new "copies" (.Integer 2)]).into_ipp_request "u" 3).payload
      = some [7] := by
  have h := print_job_request [7] (some "alice") none
    [IppAttribute.new "colormodel" (.Keyword "grayscale"),
     IppAttribute.new "copies" (.Integer 2)] "u" 3 (by decide)
  exact ⟨h.1, by simpa using h.2.1, h.2.2.1, h.2.2.2⟩

theorem printJob_header (stream : IppReadStream) (u j : Option String)
    (extras : List IppAttribute) (uri : String) (c : Nat) :
    ((PrintJob.mk stream u j extras).into_ipp_request uri c).header
      = IppHeader.new IPP_VERSION Operation.PrintJob (freshRequestId c) := by
  cases u <;> cases j <;>
    · simp only [PrintJob.into_ipp_request, set_payload_header]
      rw [foldl_set_header]
      rfl

theorem getPrinterAttributes_header (names : List String) (uri : String)
    (c : Nat) :
    ((GetPrinterAttributes.mk names).into_ipp_request uri c).header
      = IppHeader.new IPP_VERSION Operation.GetPrinterAttributes
          (freshRequestId c) := by
  cases names <;> rfl

theorem createJob_header (j : Option String) (extras : List IppAttribute)
    (uri : String) (c : Nat) :
    ((CreateJob.mk j extras).into_ipp_request uri c).header
      = IppHeader.new IPP_VERSION Operation.CreateJob (freshRequestId c) := by
  cases j <;>
    · simp only [CreateJob.into_ipp_request]
      rw [foldl_set_header]
      rfl

theorem sendDocument_header (jid : Int) (stream : IppReadStream)
    (u : Option String) (l : Bool) (uri : String) (c : Nat) :
    ((SendDocument.mk jid stream u l).into_ipp_request uri c).header
      = IppHeader.new IPP_VERSION Operation.SendDocument (freshRequestId c) := by
  cases u <;> rfl

/-- The wire-level header invariant of C9 for one built request: the
version is `IPP_VERSION` (0x0101), the request id is nonzero, parsing the
serialized message recovers the identical header, and the attribute
section ends with the end-of-attributes byte 0x03. -/
def headerWireInvariant (r : IppRequestResponse) : Prop :=
  r.header.version = IPP_VERSION ∧
  r.header.request_id ≠ 0 ∧
  IppHeader.from_reader r.serialize
    = .ok (r.header, r.groups.flatMap serializeGroup
        ++ [DelimiterTag.EndOfAttributes] ++ r.payload.getD []) ∧
  r.attrSectionBytes.getLast? = some DelimiterTag.EndOfAttributes

theorem headerWireInvariant_of (r : IppRequestResponse) (op c : Nat)
    (hop : op < 65536)
    (hh : r.header = IppHeader.new IPP_VERSION op (freshRequestId c)) :
    headerWireInvariant r := by
  have hid : r.header.request_id = freshRequestId c := by rw [hh]; rfl
  refine ⟨by rw [hh]; rfl, ?_, ?_, ?_⟩
  · rw [hid]
    unfold freshRequestId
    omega
  · have h := from_reader_writeBytes r.header
      (r.groups.flatMap serializeGroup ++ [DelimiterTag.EndOfAttributes]
        ++ r.payload.getD [])
      (by rw [hh]; show IPP_VERSION < 65536; decide)
      (by rw [hh]; show op < 65536; exact hop)
      (by rw [hid]; unfold freshRequestId; omega)
    simpa [IppRequestResponse.serialize, IppRequestResponse.attrSectionBytes,
      List.append_assoc] using h
  · unfold IppRequestResponse.attrSectionBytes
    exact List.getLast?_concat _

/-- C9: every request built by an operation builder carries version 0x0101
and a nonzero request id, both recovered unchanged when the serialized
message's header is parsed back, and the serialized attribute section
always ends with the single end-of-attributes byte 0x03. -/
theorem builders_header_invariants (stream : IppReadStream)
    (u j : Option String) (extras : List IppAttribute) (names : List String)
    (jid : Int) (l : Bool) (uri : String) (c : Nat) :
    headerWireInvariant ((PrintJob.mk stream u j extras).into_ipp_request uri c) ∧
    headerWireInvariant ((GetPrinterAttributes.mk names).into_ipp_request uri c) ∧
    headerWireInvariant ((CreateJob.mk j extras).into_ipp_request uri c) ∧
    headerWireInvariant ((SendDocument.mk jid stream u l).into_ipp_request uri c) :=
  ⟨headerWireInvariant_of _ Operation.PrintJob c (by decide)
      (printJob_header stream u j extras uri c),
   headerWireInvariant_of _ Operation.GetPrinterAttributes c (by decide)
      (getPrinterAttributes_header names uri c),
   headerWireInvariant_of _ Operation.CreateJob c (by decide)
      (createJob_header j extras uri c),
   headerWireInvariant_of _ Operation.SendDocument c (by decide)
      (sendDocument_header jid stream u l uri c)⟩

/-- Witness for C1: a parsed response with status 0x0400 is turned into
`StatusError 0x0400`, and one with status 0 is returned as-is. -/
theorem client_status_gating_witness :
    clientValidateResponse ⟨IppHeader.new 257 1024 1, [], none⟩
      = .error (.StatusError 1024) ∧
    clientValidateResponse ⟨IppHeader.new 257 0 1, [], none⟩
      = .ok ⟨IppHeader.new 257 0 1, [], none⟩ :=
  ⟨(client_status_gating ⟨IppHeader.new 257 1024 1, [], none⟩
      ⟨IppHeader.new 257 1024 1, [], none⟩).2 (by decide),
   ((client_status_gating ⟨IppHeader.new 257 0 1, [], none⟩
      ⟨IppHeader.new 257 0 1, [], none⟩).1).mpr ⟨by decide, rfl⟩⟩

end IppRs
